import Mathlib

/-!
Verification of the `xdrlib3` XDR codec (`src/xdrlib3/__init__.py`).

The module is embedded shallowly:

* a byte buffer is a `List Nat` (each entry a byte value);
* Python exceptions become the `Err` sum type (`ConversionError`,
  `EOFError`, `ValueError`, and the module's base `Error` class);
* `Packer` state is its accumulated buffer; each `pack_*` maps the old
  buffer to `Except Err Unit × List Nat`, the second component being the
  buffer after the call (unchanged when the call raises before writing);
* `Unpacker` state is the pair of its immutable buffer and cursor; each
  `unpack_*` maps a state to `Except Err value × Unpacker`, where the
  second component is the state after the call, including the state left
  behind when the call raises (Python mutations performed before a raise
  persist);
* Python's `x >> 32` on arbitrary ints is floor division, `x & 0xFFFFFFFF`
  is `x % 2^32` with a nonnegative result: both coincide with Lean's
  Euclidean `Int` division/modulus for these positive divisors;
* IEEE-754 values handled by `pack_float` and `pack_double` are modelled
  by their 32- and 64-bit bit patterns: `struct.pack(">f")` writes
  exactly the big-endian bit pattern of the value and `struct.unpack`
  reads it back, so on representable values the byte level is an exact
  image of the Python behaviour.
-/

namespace Xdrlib

/-- Big-endian base-256 digits: `beBytes k x` is the `k`-byte big-endian
encoding of `x mod 256^k`, as `struct.pack` produces for `>L` (k = 4)
and as two concatenated words produce for uhyper (k = 8). -/
def beBytes : Nat → Nat → List Nat
  | 0, _ => []
  | k + 1, x => x / 256 ^ k % 256 :: beBytes k x

/-- Big-endian base-256 value of a byte list, as `struct.unpack(">L")`
computes it from 4 bytes. -/
def beDecode (l : List Nat) : Nat :=
  l.foldl (fun a d => a * 256 + d) 0

/-- Python slice `l[i:j]` for `0 ≤ i ≤ j` (indices clamped to the list
length, never raising). -/
def pySlice (l : List Nat) (i j : Nat) : List Nat :=
  (l.take j).drop i

/-- The exceptions raised by the module: `ConversionError` and the base
`Error` class from the source, plus Python's builtin `EOFError` and
`ValueError` which the source raises directly. -/
inductive Err where
  | conversionError (msg : String)
  | eofError
  | valueError (msg : String)
  | error (msg : String)
  deriving Repr, DecidableEq

namespace Packer

/-- `Packer.reset` / a fresh `Packer`: the empty buffer. -/
def reset : List Nat := []

/-- `Packer.get_buffer`: a snapshot of the bytes written so far. -/
def get_buffer (buf : List Nat) : List Nat := buf

/-- `Packer.pack_uint`: `struct.pack(">L", x)` appended to the buffer;
`struct.error` (wrapped into `ConversionError` by the
`raise_conversion_error` decorator) unless `0 ≤ x < 2^32`.  The
`struct` message text is not modelled verbatim. -/
def pack_uint (x : Int) (buf : List Nat) : Except Err Unit × List Nat :=
  if 0 ≤ x ∧ x < 4294967296 then (Except.ok (), buf ++ beBytes 4 x.toNat)
  else (Except.error (Err.conversionError "argument out of range"), buf)

/-- `Packer.pack_int`: `struct.pack(">l", x)`, two's-complement big-endian,
range `[-2^31, 2^31)`. -/
def pack_int (x : Int) (buf : List Nat) : Except Err Unit × List Nat :=
  if -2147483648 ≤ x ∧ x < 2147483648 then
    (Except.ok (), buf ++ beBytes 4 ((x % 4294967296).toNat))
  else (Except.error (Err.conversionError "argument out of range"), buf)

/-- `Packer.pack_enum = pack_int` (source alias). -/
def pack_enum : Int → List Nat → Except Err Unit × List Nat := pack_int

/-- `Packer.pack_bool`: writes the literal 4 bytes, never fails. -/
def pack_bool (x : Bool) (buf : List Nat) : Except Err Unit × List Nat :=
  if x then (Except.ok (), buf ++ [0, 0, 0, 1])
  else (Except.ok (), buf ++ [0, 0, 0, 0])

/-- `Packer.pack_uhyper`: `pack_uint(x >> 32 & 0xFFFFFFFF)` then
`pack_uint(x & 0xFFFFFFFF)`; a `struct.error`/`TypeError` from either
delegated call would be re-raised as `ConversionError` (the delegated
call already yields `ConversionError`, so the wrapping is the identity
here). -/
def pack_uhyper (x : Int) (buf : List Nat) : Except Err Unit × List Nat :=
  match pack_uint (x / 4294967296 % 4294967296) buf with
  | (Except.ok _, b) => pack_uint (x % 4294967296) b
  | e => e

/-- `Packer.pack_hyper = pack_uhyper` (source alias). -/
def pack_hyper : Int → List Nat → Except Err Unit × List Nat := pack_uhyper

/-- `Packer.pack_float`: `struct.pack(">f", x)`; the binary32 value is
modelled by its bit pattern `p`, whose big-endian bytes are written. -/
def pack_float (p : Nat) (buf : List Nat) : Except Err Unit × List Nat :=
  (Except.ok (), buf ++ beBytes 4 p)

/-- `Packer.pack_double`: `struct.pack(">d", x)`; the binary64 value is
modelled by its bit pattern `p`, whose big-endian bytes are written. -/
def pack_double (p : Nat) (buf : List Nat) : Except Err Unit × List Nat :=
  (Except.ok (), buf ++ beBytes 8 p)

/-- `Packer.pack_fstring`: `ValueError` if `n < 0`; otherwise writes
`s[:n]` padded with zero bytes up to `((n + 3) // 4) * 4`. -/
def pack_fstring (n : Int) (s : List Nat) (buf : List Nat) :
    Except Err Unit × List Nat :=
  if n < 0 then (Except.error (Err.valueError "fstring size must be nonnegative"), buf)
  else
    let data := s.take n.toNat
    let m := (n.toNat + 3) / 4 * 4
    (Except.ok (), buf ++ (data ++ List.replicate (m - data.length) 0))

/-- `Packer.pack_fopaque = pack_fstring` (source alias). -/
def pack_fopaque : Int → List Nat → List Nat → Except Err Unit × List Nat := pack_fstring

/-- `Packer.pack_string`: `pack_uint(len(s))` then `pack_fstring(len(s), s)`. -/
def pack_string (s : List Nat) (buf : List Nat) : Except Err Unit × List Nat :=
  match pack_uint (s.length : Int) buf with
  | (Except.ok _, b) => pack_fstring (s.length : Int) s b
  | e => e

/-- `Packer.pack_opaque = pack_string` (source alias). -/
def pack_opaque : List Nat → List Nat → Except Err Unit × List Nat := pack_string

/-- `Packer.pack_bytes = pack_string` (source alias). -/
def pack_bytes : List Nat → List Nat → Except Err Unit × List Nat := pack_string

/-- `Packer.pack_list`: for each item `pack_uint(1)` then the item, and a
final `pack_uint(0)` sentinel; an exception aborts the loop with the
bytes written so far kept in the buffer. -/
def pack_list {α : Type} (items : List α)
    (pack_item : α → List Nat → Except Err Unit × List Nat)
    (buf : List Nat) : Except Err Unit × List Nat :=
  match items with
  | [] => pack_uint 0 buf
  | item :: rest =>
    match pack_uint 1 buf with
    | (Except.ok _, b1) =>
      match pack_item item b1 with
      | (Except.ok _, b2) => pack_list rest pack_item b2
      | e => e
    | e => e

/-- The `for item in list: pack_item(item)` loop body shared by
`pack_farray` and `pack_array`: sequential application in order. -/
def packItems {α : Type} (items : List α)
    (pack_item : α → List Nat → Except Err Unit × List Nat)
    (buf : List Nat) : Except Err Unit × List Nat :=
  match items with
  | [] => (Except.ok (), buf)
  | item :: rest =>
    match pack_item item buf with
    | (Except.ok _, b) => packItems rest pack_item b
    | e => e

/-- `Packer.pack_farray`: `ValueError` (before any write) unless
`len(items) == n`, else packs each item in order, no length prefix. -/
def pack_farray {α : Type} (n : Int) (items : List α)
    (pack_item : α → List Nat → Except Err Unit × List Nat)
    (buf : List Nat) : Except Err Unit × List Nat :=
  if (items.length : Int) ≠ n then (Except.error (Err.valueError "wrong array size"), buf)
  else packItems items pack_item buf

/-- `Packer.pack_array`: `pack_uint(len(items))` then
`pack_farray(len(items), items, pack_item)`. -/
def pack_array {α : Type} (items : List α)
    (pack_item : α → List Nat → Except Err Unit × List Nat)
    (buf : List Nat) : Except Err Unit × List Nat :=
  match pack_uint (items.length : Int) buf with
  | (Except.ok _, b) => pack_farray (items.length : Int) items pack_item b
  | e => e

end Packer

/-- `Unpacker` state: the immutable buffer handed to `reset` and the
cursor `__pos`. -/
structure Unpacker where
  buf : List Nat
  pos : Nat
  deriving Repr, DecidableEq

namespace Unpacker

/-- `Unpacker.reset(data)` / `__init__`: cursor at 0. -/
def reset (data : List Nat) : Unpacker := ⟨data, 0⟩

/-- `Unpacker.get_position`. -/
def get_position (u : Unpacker) : Nat := u.pos

/-- `Unpacker.set_position`. -/
def set_position (u : Unpacker) (p : Nat) : Unpacker := ⟨u.buf, p⟩

/-- `Unpacker.get_buffer`. -/
def get_buffer (u : Unpacker) : List Nat := u.buf

/-- `Unpacker.done`: the base `Error("unextracted data remains")` when the
cursor has not reached the end of the buffer. -/
def done (u : Unpacker) : Except Err Unit :=
  if u.pos < u.buf.length then Except.error (Err.error "unextracted data remains")
  else Except.ok ()

/-- `Unpacker.unpack_uint`: note the source commits `self.__pos = i + 4`
before the length check, so the cursor advance happens even on
`EOFError`. -/
def unpack_uint (u : Unpacker) : Except Err Int × Unpacker :=
  let i := u.pos
  let j := i + 4
  let u' : Unpacker := ⟨u.buf, j⟩
  let data := pySlice u.buf i j
  if data.length < 4 then (Except.error Err.eofError, u')
  else (Except.ok ((beDecode data : Nat) : Int), u')

/-- `Unpacker.unpack_int`: as `unpack_uint` but decoded as signed
two's-complement (`struct.unpack(">l")`). -/
def unpack_int (u : Unpacker) : Except Err Int × Unpacker :=
  let i := u.pos
  let j := i + 4
  let u' : Unpacker := ⟨u.buf, j⟩
  let data := pySlice u.buf i j
  if data.length < 4 then (Except.error Err.eofError, u')
  else
    let n := beDecode data
    if n < 2147483648 then (Except.ok (n : Int), u')
    else (Except.ok ((n : Int) - 4294967296), u')

/-- `Unpacker.unpack_enum = unpack_int` (source alias). -/
def unpack_enum : Unpacker → Except Err Int × Unpacker := unpack_int

/-- `Unpacker.unpack_bool`: `bool(self.unpack_int())`. -/
def unpack_bool (u : Unpacker) : Except Err Bool × Unpacker :=
  match unpack_int u with
  | (Except.ok x, u') => (Except.ok (x != 0), u')
  | (Except.error e, u') => (Except.error e, u')

/-- `Unpacker.unpack_uhyper`: two `unpack_uint` calls combined as
`hi << 32 | lo` (both nonnegative, `lo < 2^32`, so this is
`hi * 2^32 + lo`). -/
def unpack_uhyper (u : Unpacker) : Except Err Int × Unpacker :=
  match unpack_uint u with
  | (Except.error e, u') => (Except.error e, u')
  | (Except.ok hi, u') =>
    match unpack_uint u' with
    | (Except.error e, u'') => (Except.error e, u'')
    | (Except.ok lo, u'') => (Except.ok (hi * 4294967296 + lo), u'')

/-- `Unpacker.unpack_hyper`: `unpack_uhyper`, then subtract `2^64` when
the value is `≥ 2^63`. -/
def unpack_hyper (u : Unpacker) : Except Err Int × Unpacker :=
  match unpack_uhyper u with
  | (Except.error e, u') => (Except.error e, u')
  | (Except.ok x, u') =>
    if x ≥ 9223372036854775808 then (Except.ok (x - 18446744073709551616), u')
    else (Except.ok x, u')

/-- `Unpacker.unpack_float`: 4 bytes, modelled as the binary32 bit
pattern; the source commits the cursor advance before the length
check, as in `unpack_uint`. -/
def unpack_float (u : Unpacker) : Except Err Nat × Unpacker :=
  let i := u.pos
  let j := i + 4
  let u' : Unpacker := ⟨u.buf, j⟩
  let data := pySlice u.buf i j
  if data.length < 4 then (Except.error Err.eofError, u')
  else (Except.ok (beDecode data), u')

/-- `Unpacker.unpack_double`: 8 bytes, modelled as the binary64 bit
pattern; cursor committed before the length check. -/
def unpack_double (u : Unpacker) : Except Err Nat × Unpacker :=
  let i := u.pos
  let j := i + 8
  let u' : Unpacker := ⟨u.buf, j⟩
  let data := pySlice u.buf i j
  if data.length < 8 then (Except.error Err.eofError, u')
  else (Except.ok (beDecode data), u')

/-- `Unpacker.unpack_fstring`: `ValueError` if `n < 0`; reads the
4-byte-aligned length but returns only the first `n` bytes; the
`EOFError` check here happens *before* the cursor assignment. -/
def unpack_fstring (n : Int) (u : Unpacker) : Except Err (List Nat) × Unpacker :=
  if n < 0 then (Except.error (Err.valueError "fstring size must be nonnegative"), u)
  else
    let i := u.pos
    let j := i + (n.toNat + 3) / 4 * 4
    if u.buf.length < j then (Except.error Err.eofError, u)
    else (Except.ok (pySlice u.buf i (i + n.toNat)), ⟨u.buf, j⟩)

/-- `Unpacker.unpack_fopaque = unpack_fstring` (source alias). -/
def unpack_fopaque : Int → Unpacker → Except Err (List Nat) × Unpacker := unpack_fstring

/-- `Unpacker.unpack_string`: length via `unpack_uint`, then
`unpack_fstring` of that length. -/
def unpack_string (u : Unpacker) : Except Err (List Nat) × Unpacker :=
  match unpack_uint u with
  | (Except.ok n, u') => unpack_fstring n u'
  | (Except.error e, u') => (Except.error e, u')

/-- `Unpacker.unpack_opaque = unpack_string` (source alias). -/
def unpack_opaque : Unpacker → Except Err (List Nat) × Unpacker := unpack_string

/-- `Unpacker.unpack_bytes = unpack_string` (source alias). -/
def unpack_bytes : Unpacker → Except Err (List Nat) × Unpacker := unpack_string

/-- The `while 1` loop of `Unpacker.unpack_list`, with explicit fuel: the
Python loop is not structurally terminating for an arbitrary
`unpack_item` (which may move the cursor), so `none` models a run that
exceeds the fuel.  Each iteration reads a tag: 0 stops, a tag other
than 0 or 1 raises `ConversionError("0 or 1 expected, got %r")`, tag 1
reads one item and continues. -/
def unpack_list_fuel {α : Type} (unpack_item : Unpacker → Except Err α × Unpacker) :
    Nat → Unpacker → Option (Except Err (List α)) × Unpacker
  | 0, u => (none, u)
  | fuel + 1, u =>
    match unpack_uint u with
    | (Except.error e, u') => (some (Except.error e), u')
    | (Except.ok x, u') =>
      if x = 0 then (some (Except.ok []), u')
      else if x ≠ 1 then
        (some (Except.error (Err.conversionError ("0 or 1 expected, got " ++ toString x))), u')
      else
        match unpack_item u' with
        | (Except.error e, u'') => (some (Except.error e), u'')
        | (Except.ok item, u'') =>
          match unpack_list_fuel unpack_item fuel u'' with
          | (some (Except.ok rest), u3) => (some (Except.ok (item :: rest)), u3)
          | other => other

/-- `Unpacker.unpack_list`, run with fuel `len(buffer) + 1`, which is
ample for any item unpacker that advances the cursor (each iteration
consumes at least the 4 tag bytes). -/
def unpack_list {α : Type} (unpack_item : Unpacker → Except Err α × Unpacker)
    (u : Unpacker) : Option (Except Err (List α)) × Unpacker :=
  unpack_list_fuel unpack_item (u.buf.length + 1) u

/-- The `for i in range(n)` loop of `Unpacker.unpack_farray`: invoke the
item unpacker exactly `n` times, collecting results in order. -/
def unpack_farray_go {α : Type} (unpack_item : Unpacker → Except Err α × Unpacker) :
    Nat → Unpacker → Except Err (List α) × Unpacker
  | 0, u => (Except.ok [], u)
  | k + 1, u =>
    match unpack_item u with
    | (Except.error e, u') => (Except.error e, u')
    | (Except.ok item, u') =>
      match unpack_farray_go unpack_item k u' with
      | (Except.ok rest, u'') => (Except.ok (item :: rest), u'')
      | (Except.error e, u'') => (Except.error e, u'')

/-- `Unpacker.unpack_farray` (`range(n)` of a negative `n` is empty). -/
def unpack_farray {α : Type} (n : Int)
    (unpack_item : Unpacker → Except Err α × Unpacker) (u : Unpacker) :
    Except Err (List α) × Unpacker :=
  unpack_farray_go unpack_item n.toNat u

/-- `Unpacker.unpack_array`: count via `unpack_uint`, then
`unpack_farray` of that count. -/
def unpack_array {α : Type} (unpack_item : Unpacker → Except Err α × Unpacker)
    (u : Unpacker) : Except Err (List α) × Unpacker :=
  match unpack_uint u with
  | (Except.ok n, u') => unpack_farray n unpack_item u'
  | (Except.error e, u') => (Except.error e, u')

end Unpacker

/-- The value-free `unpack_*` operations (plus `done`) a caller can apply
to an `Unpacker` without `set_position`, used to state the cursor
invariant over arbitrary call sequences.  `fstring` carries the
caller-chosen length. -/
inductive Op where
  | uint
  | int
  | enum
  | bool
  | uhyper
  | hyper
  | float
  | double
  | fstring (n : Int)
  | string
  | done
  deriving Repr, DecidableEq

/-- Forget an operation's value, keeping its success and state effect. -/
def discardVal {α : Type} (r : Except Err α × Unpacker) : Except Err Unit × Unpacker :=
  (r.1.map (fun _ => ()), r.2)

/-- Run one operation on an `Unpacker` state. -/
def runOp : Op → Unpacker → Except Err Unit × Unpacker
  | Op.uint, u => discardVal (Unpacker.unpack_uint u)
  | Op.int, u => discardVal (Unpacker.unpack_int u)
  | Op.enum, u => discardVal (Unpacker.unpack_enum u)
  | Op.bool, u => discardVal (Unpacker.unpack_bool u)
  | Op.uhyper, u => discardVal (Unpacker.unpack_uhyper u)
  | Op.hyper, u => discardVal (Unpacker.unpack_hyper u)
  | Op.float, u => discardVal (Unpacker.unpack_float u)
  | Op.double, u => discardVal (Unpacker.unpack_double u)
  | Op.fstring n, u => discardVal (Unpacker.unpack_fstring n u)
  | Op.string, u => discardVal (Unpacker.unpack_string u)
  | Op.done, u => (Unpacker.done u, u)

/-- Run a sequence of operations; an exception aborts the sequence,
leaving the state of the failing call (as a raised Python exception
would). -/
def runOps : List Op → Unpacker → Unpacker
  | [], u => u
  | op :: ops, u =>
    match runOp op u with
    | (Except.ok _, u') => runOps ops u'
    | (Except.error _, u') => u'

/-- Whether every operation of the sequence succeeds. -/
def runOpsOk : List Op → Unpacker → Bool
  | [], _ => true
  | op :: ops, u =>
    match runOp op u with
    | (Except.ok _, u') => runOpsOk ops u'
    | (Except.error _, _) => false

/-- The wire bytes of `pack_list(vs, pack_int)` as §6 and §8 of the spec
describe them: per element a tag-1 word then the element's 4-byte
two's-complement encoding, then a terminating tag-0 word, with no
upfront count. -/
def listWire (vs : List Int) : List Nat :=
  (vs.map (fun v => beBytes 4 1 ++ beBytes 4 ((v % 4294967296).toNat))).flatten ++ beBytes 4 0

theorem beBytes_length (k x : Nat) : (beBytes k x).length = k := by
  induction k generalizing x with
  | zero => rfl
  | succ k ih => simp [beBytes, ih]

theorem foldl_beBytes (k x a : Nat) :
    List.foldl (fun a d => a * 256 + d) a (beBytes k x) = a * 256 ^ k + x % 256 ^ k := by
  induction k generalizing a with
  | zero => simp [beBytes, Nat.mod_one]
  | succ k ih =>
    rw [beBytes, List.foldl_cons, ih, pow_succ, Nat.mod_mul]
    ring

theorem beDecode_beBytes (k x : Nat) : beDecode (beBytes k x) = x % 256 ^ k := by
  simp [beDecode, foldl_beBytes]

theorem beBytes_mod (k x : Nat) : beBytes k (x % 256 ^ k) = beBytes k x := by
  induction k generalizing x with
  | zero => rfl
  | succ k ih =>
    rw [beBytes, beBytes]
    refine congrArg₂ _ ?_ ?_
    · rw [pow_succ, Nat.mod_mul_right_div_self]
      omega
    · calc beBytes k (x % 256 ^ (k + 1))
          = beBytes k (x % 256 ^ (k + 1) % 256 ^ k) := (ih _).symm
        _ = beBytes k (x % 256 ^ k) := by
            rw [Nat.mod_mod_of_dvd _ (pow_dvd_pow 256 (Nat.le_succ k))]
        _ = beBytes k x := ih x

theorem beBytes_add (a b x : Nat) :
    beBytes (a + b) x = beBytes a (x / 256 ^ b) ++ beBytes b x := by
  induction a with
  | zero => simp [beBytes]
  | succ a ih =>
    have h1 : a + 1 + b = (a + b) + 1 := by omega
    rw [h1, beBytes, beBytes, ih, Nat.div_div_eq_div_mul, ← pow_add, Nat.add_comm b a]
    rfl

theorem pySlice_exact (pre mid rest : List Nat) :
    pySlice (pre ++ (mid ++ rest)) pre.length (pre.length + mid.length) = mid := by
  rw [pySlice, List.take_append, List.take_left, List.drop_left]

theorem pySlice_length (l : List Nat) (i j : Nat) :
    (pySlice l i j).length = min j l.length - i := by
  simp [pySlice]

theorem pack_uint_ok (x : Int) (buf : List Nat) (h0 : 0 ≤ x) (h1 : x < 4294967296) :
    Packer.pack_uint x buf = (Except.ok (), buf ++ beBytes 4 x.toNat) := by
  rw [Packer.pack_uint, if_pos ⟨h0, h1⟩]

theorem pack_int_ok (x : Int) (buf : List Nat) (h0 : -2147483648 ≤ x) (h1 : x < 2147483648) :
    Packer.pack_int x buf = (Except.ok (), buf ++ beBytes 4 ((x % 4294967296).toNat)) := by
  rw [Packer.pack_int, if_pos ⟨h0, h1⟩]

theorem pack_uhyper_eq (x : Int) (buf : List Nat) :
    Packer.pack_uhyper x buf =
      (Except.ok (), buf ++
        (beBytes 4 ((x / 4294967296 % 4294967296).toNat) ++
          beBytes 4 ((x % 4294967296).toNat))) := by
  rw [Packer.pack_uhyper,
    pack_uint_ok _ _ (by omega) (by omega)]
  show Packer.pack_uint (x % 4294967296)
      (buf ++ beBytes 4 ((x / 4294967296 % 4294967296).toNat)) = _
  rw [pack_uint_ok _ _ (by omega) (by omega), List.append_assoc]

theorem pack_uhyper_bytes (x : Int) (buf : List Nat) :
    Packer.pack_uhyper x buf =
      (Except.ok (), buf ++ beBytes 8 ((x % 18446744073709551616).toNat)) := by
  rw [pack_uhyper_eq]
  refine congrArg _ (congrArg _ ?_)
  have h8 : (8 : Nat) = 4 + 4 := rfl
  rw [h8, beBytes_add]
  have h4 : (256 : Nat) ^ 4 = 4294967296 := by norm_num
  refine congrArg₂ _ ?_ ?_
  · refine congrArg _ ?_
    rw [h4]
    omega
  · rw [← beBytes_mod 4 ((x % 18446744073709551616).toNat), h4]
    refine congrArg _ ?_
    omega

theorem unpack_uint_at (u : Unpacker) (pre rest : List Nat) (x : Nat)
    (hbuf : u.buf = pre ++ (beBytes 4 x ++ rest)) (hpos : u.pos = pre.length)
    (hx : x < 4294967296) :
    Unpacker.unpack_uint u = (Except.ok (x : Int), ⟨u.buf, u.pos + 4⟩) := by
  have hslice : pySlice u.buf u.pos (u.pos + 4) = beBytes 4 x := by
    rw [hbuf, hpos]
    have h := pySlice_exact pre (beBytes 4 x) rest
    rwa [beBytes_length] at h
  rw [Unpacker.unpack_uint]
  rw [hslice, beBytes_length, if_neg (by omega), beDecode_beBytes,
    Nat.mod_eq_of_lt (lt_of_lt_of_le hx (by norm_num))]

theorem unpack_int_at (u : Unpacker) (pre rest : List Nat) (v : Int)
    (hbuf : u.buf = pre ++ (beBytes 4 ((v % 4294967296).toNat) ++ rest))
    (hpos : u.pos = pre.length)
    (h0 : -2147483648 ≤ v) (h1 : v < 2147483648) :
    Unpacker.unpack_int u = (Except.ok v, ⟨u.buf, u.pos + 4⟩) := by
  have hslice : pySlice u.buf u.pos (u.pos + 4) = beBytes 4 ((v % 4294967296).toNat) := by
    rw [hbuf, hpos]
    have h := pySlice_exact pre (beBytes 4 ((v % 4294967296).toNat)) rest
    rwa [beBytes_length] at h
  have hlt : (v % 4294967296).toNat < 4294967296 := by omega
  rw [Unpacker.unpack_int]
  rw [hslice, beBytes_length, if_neg (by omega), beDecode_beBytes,
    Nat.mod_eq_of_lt (lt_of_lt_of_le hlt (by norm_num))]
  by_cases hn : (v % 4294967296).toNat < 2147483648
  · rw [if_pos hn]
    have hv : ((v % 4294967296).toNat : Int) = v := by omega
    rw [hv]
  · rw [if_neg hn]
    have hv : ((v % 4294967296).toNat : Int) - 4294967296 = v := by omega
    rw [hv]

theorem unpack_float_at (u : Unpacker) (pre rest : List Nat) (p : Nat)
    (hbuf : u.buf = pre ++ (beBytes 4 p ++ rest)) (hpos : u.pos = pre.length)
    (hp : p < 4294967296) :
    Unpacker.unpack_float u = (Except.ok p, ⟨u.buf, u.pos + 4⟩) := by
  have hslice : pySlice u.buf u.pos (u.pos + 4) = beBytes 4 p := by
    rw [hbuf, hpos]
    have h := pySlice_exact pre (beBytes 4 p) rest
    rwa [beBytes_length] at h
  rw [Unpacker.unpack_float]
  rw [hslice, beBytes_length, if_neg (by omega), beDecode_beBytes,
    Nat.mod_eq_of_lt (lt_of_lt_of_le hp (by norm_num))]

theorem unpack_double_at (u : Unpacker) (pre rest : List Nat) (p : Nat)
    (hbuf : u.buf = pre ++ (beBytes 8 p ++ rest)) (hpos : u.pos = pre.length)
    (hp : p < 18446744073709551616) :
    Unpacker.unpack_double u = (Except.ok p, ⟨u.buf, u.pos + 8⟩) := by
  have hslice : pySlice u.buf u.pos (u.pos + 8) = beBytes 8 p := by
    rw [hbuf, hpos]
    have h := pySlice_exact pre (beBytes 8 p) rest
    rwa [beBytes_length] at h
  rw [Unpacker.unpack_double]
  rw [hslice, beBytes_length, if_neg (by omega), beDecode_beBytes,
    Nat.mod_eq_of_lt (lt_of_lt_of_le hp (by norm_num))]

theorem beBytes_eight_split (t : Nat) :
    beBytes 8 t = beBytes 4 (t / 4294967296) ++ beBytes 4 (t % 4294967296) := by
  have h := beBytes_add 4 4 t
  rw [show (256 : Nat) ^ 4 = 4294967296 by norm_num] at h
  rw [show (4 : Nat) + 4 = 8 from rfl] at h
  rw [h]
  refine congrArg _ ?_
  rw [← beBytes_mod 4 t, show (256 : Nat) ^ 4 = 4294967296 by norm_num]

theorem unpack_uhyper_at (u : Unpacker) (pre rest : List Nat) (t : Nat)
    (hbuf : u.buf = pre ++ (beBytes 8 t ++ rest)) (hpos : u.pos = pre.length)
    (ht : t < 18446744073709551616) :
    Unpacker.unpack_uhyper u = (Except.ok (t : Int), ⟨u.buf, u.pos + 8⟩) := by
  have hb1 : u.buf = pre ++ (beBytes 4 (t / 4294967296) ++ (beBytes 4 (t % 4294967296) ++ rest)) := by
    rw [hbuf, beBytes_eight_split, List.append_assoc]
  have hb2 : u.buf = (pre ++ beBytes 4 (t / 4294967296)) ++ (beBytes 4 (t % 4294967296) ++ rest) := by
    rw [hb1, List.append_assoc]
  have hp2 : u.pos + 4 = (pre ++ beBytes 4 (t / 4294967296)).length := by
    simp [beBytes_length, hpos]
  have hfirst := unpack_uint_at u pre (beBytes 4 (t % 4294967296) ++ rest) (t / 4294967296)
    hb1 hpos (by omega)
  have hsecond := unpack_uint_at ⟨u.buf, u.pos + 4⟩ (pre ++ beBytes 4 (t / 4294967296)) rest
    (t % 4294967296) hb2 hp2 (by omega)
  simp only [Unpacker.unpack_uhyper, hfirst, hsecond]
  refine congrArg₂ Prod.mk ?_ ?_
  · exact congrArg _ (by omega)
  · exact congrArg (Unpacker.mk u.buf) (by omega)

theorem unpack_hyper_at (u : Unpacker) (pre rest : List Nat) (v : Int)
    (hbuf : u.buf = pre ++ (beBytes 8 ((v % 18446744073709551616).toNat) ++ rest))
    (hpos : u.pos = pre.length)
    (h0 : -9223372036854775808 ≤ v) (h1 : v < 9223372036854775808) :
    Unpacker.unpack_hyper u = (Except.ok v, ⟨u.buf, u.pos + 8⟩) := by
  have huh := unpack_uhyper_at u pre rest ((v % 18446744073709551616).toNat) hbuf hpos (by omega)
  simp only [Unpacker.unpack_hyper, huh]
  by_cases hn : ((v % 18446744073709551616).toNat : Int) ≥ 9223372036854775808
  · rw [if_pos hn]
    have hv : ((v % 18446744073709551616).toNat : Int) - 18446744073709551616 = v := by omega
    rw [hv]
  · rw [if_neg hn]
    have hv : ((v % 18446744073709551616).toNat : Int) = v := by omega
    rw [hv]

theorem unpack_uint_snd (u : Unpacker) :
    (Unpacker.unpack_uint u).2 = ⟨u.buf, u.pos + 4⟩ := by
  rw [Unpacker.unpack_uint]
  split <;> rfl

theorem unpack_int_snd (u : Unpacker) :
    (Unpacker.unpack_int u).2 = ⟨u.buf, u.pos + 4⟩ := by
  rw [Unpacker.unpack_int]
  split
  · rfl
  · dsimp only
    split <;> rfl

theorem unpack_float_snd (u : Unpacker) :
    (Unpacker.unpack_float u).2 = ⟨u.buf, u.pos + 4⟩ := by
  rw [Unpacker.unpack_float]
  split <;> rfl

theorem unpack_double_snd (u : Unpacker) :
    (Unpacker.unpack_double u).2 = ⟨u.buf, u.pos + 8⟩ := by
  rw [Unpacker.unpack_double]
  split <;> rfl

theorem unpack_uint_ok_le (u : Unpacker) (h : (Unpacker.unpack_uint u).1.isOk = true) :
    u.pos + 4 ≤ u.buf.length := by
  by_contra hc
  rw [Unpacker.unpack_uint, if_pos (by rw [pySlice_length]; omega)] at h
  cases h

theorem unpack_int_ok_le (u : Unpacker) (h : (Unpacker.unpack_int u).1.isOk = true) :
    u.pos + 4 ≤ u.buf.length := by
  by_contra hc
  rw [Unpacker.unpack_int, if_pos (by rw [pySlice_length]; omega)] at h
  cases h

theorem unpack_float_ok_le (u : Unpacker) (h : (Unpacker.unpack_float u).1.isOk = true) :
    u.pos + 4 ≤ u.buf.length := by
  by_contra hc
  rw [Unpacker.unpack_float, if_pos (by rw [pySlice_length]; omega)] at h
  cases h

theorem unpack_double_ok_le (u : Unpacker) (h : (Unpacker.unpack_double u).1.isOk = true) :
    u.pos + 8 ≤ u.buf.length := by
  by_contra hc
  rw [Unpacker.unpack_double, if_pos (by rw [pySlice_length]; omega)] at h
  cases h

theorem unpack_bool_facts (u : Unpacker) :
    (Unpacker.unpack_bool u).2 = (Unpacker.unpack_int u).2 ∧
    (Unpacker.unpack_bool u).1.isOk = (Unpacker.unpack_int u).1.isOk := by
  rcases h : Unpacker.unpack_int u with ⟨r, u'⟩
  cases r with
  | error e =>
    have heq : Unpacker.unpack_bool u = (Except.error e, u') := by
      simp only [Unpacker.unpack_bool, h]
    rw [heq]
    exact ⟨rfl, rfl⟩
  | ok x =>
    have heq : Unpacker.unpack_bool u = (Except.ok (x != 0), u') := by
      simp only [Unpacker.unpack_bool, h]
    rw [heq]
    exact ⟨rfl, rfl⟩

theorem unpack_uhyper_facts (u : Unpacker) (hI : u.pos ≤ u.buf.length) :
    (Unpacker.unpack_uhyper u).2.buf = u.buf ∧
    (Unpacker.unpack_uhyper u).2.pos ≤ u.buf.length + 8 ∧
    ((Unpacker.unpack_uhyper u).1.isOk = true →
      (Unpacker.unpack_uhyper u).2.pos ≤ u.buf.length) := by
  rcases h1 : Unpacker.unpack_uint u with ⟨r1, u1⟩
  have hsnd1 := unpack_uint_snd u
  rw [h1] at hsnd1
  have hu1 : u1 = ⟨u.buf, u.pos + 4⟩ := hsnd1
  have hu1b : u1.buf = u.buf := by rw [hu1]
  have hu1p : u1.pos = u.pos + 4 := by rw [hu1]
  cases r1 with
  | error e =>
    have heq : Unpacker.unpack_uhyper u = (Except.error e, u1) := by
      simp only [Unpacker.unpack_uhyper, h1]
    rw [heq]
    refine ⟨hu1b, ?_, ?_⟩
    · show u1.pos ≤ u.buf.length + 8
      omega
    · intro hc
      exact Bool.noConfusion hc
  | ok hi =>
    have hle1 : u.pos + 4 ≤ u.buf.length := unpack_uint_ok_le u (by rw [h1]; rfl)
    rcases h2 : Unpacker.unpack_uint u1 with ⟨r2, u2⟩
    have hsnd2 := unpack_uint_snd u1
    rw [h2] at hsnd2
    have hu2 : u2 = ⟨u1.buf, u1.pos + 4⟩ := hsnd2
    have hu2b : u2.buf = u.buf := by rw [hu2]; exact hu1b
    have hu2p : u2.pos = u.pos + 8 := by rw [hu2]; show u1.pos + 4 = u.pos + 8; omega
    cases r2 with
    | error e =>
      have heq : Unpacker.unpack_uhyper u = (Except.error e, u2) := by
        simp only [Unpacker.unpack_uhyper, h1, h2]
      rw [heq]
      refine ⟨hu2b, ?_, ?_⟩
      · show u2.pos ≤ u.buf.length + 8
        omega
      · intro hc
        exact Bool.noConfusion hc
    | ok lo =>
      have hle2 : u1.pos + 4 ≤ u1.buf.length := unpack_uint_ok_le u1 (by rw [h2]; rfl)
      rw [hu1p, hu1b] at hle2
      have heq : Unpacker.unpack_uhyper u = (Except.ok (hi * 4294967296 + lo), u2) := by
        simp only [Unpacker.unpack_uhyper, h1, h2]
      rw [heq]
      refine ⟨hu2b, ?_, fun _ => ?_⟩
      · show u2.pos ≤ u.buf.length + 8
        omega
      · show u2.pos ≤ u.buf.length
        omega

theorem unpack_hyper_eq (u : Unpacker) :
    (Unpacker.unpack_hyper u).2 = (Unpacker.unpack_uhyper u).2 ∧
    (Unpacker.unpack_hyper u).1.isOk = (Unpacker.unpack_uhyper u).1.isOk := by
  rcases h : Unpacker.unpack_uhyper u with ⟨r, u'⟩
  cases r with
  | error e =>
    have heq : Unpacker.unpack_hyper u = (Except.error e, u') := by
      simp only [Unpacker.unpack_hyper, h]
    rw [heq]
    exact ⟨rfl, rfl⟩
  | ok x =>
    by_cases hx : x ≥ 9223372036854775808
    · have heq : Unpacker.unpack_hyper u = (Except.ok (x - 18446744073709551616), u') := by
        simp only [Unpacker.unpack_hyper, h, if_pos hx]
      rw [heq]
      exact ⟨rfl, rfl⟩
    · have heq : Unpacker.unpack_hyper u = (Except.ok x, u') := by
        simp only [Unpacker.unpack_hyper, h, if_neg hx]
      rw [heq]
      exact ⟨rfl, rfl⟩

theorem unpack_fstring_facts (n : Int) (u : Unpacker) (hI : u.pos ≤ u.buf.length) :
    (Unpacker.unpack_fstring n u).2.buf = u.buf ∧
    (Unpacker.unpack_fstring n u).2.pos ≤ u.buf.length := by
  rw [Unpacker.unpack_fstring]
  split
  · exact ⟨rfl, hI⟩
  · dsimp only
    split
    · exact ⟨rfl, hI⟩
    · rename_i hj
      refine ⟨rfl, ?_⟩
      show u.pos + (n.toNat + 3) / 4 * 4 ≤ u.buf.length
      omega

theorem unpack_string_facts (u : Unpacker) (hI : u.pos ≤ u.buf.length) :
    (Unpacker.unpack_string u).2.buf = u.buf ∧
    (Unpacker.unpack_string u).2.pos ≤ u.buf.length + 8 ∧
    ((Unpacker.unpack_string u).1.isOk = true →
      (Unpacker.unpack_string u).2.pos ≤ u.buf.length) := by
  rcases h1 : Unpacker.unpack_uint u with ⟨r1, u1⟩
  have hsnd1 := unpack_uint_snd u
  rw [h1] at hsnd1
  have hu1 : u1 = ⟨u.buf, u.pos + 4⟩ := hsnd1
  have hu1b : u1.buf = u.buf := by rw [hu1]
  have hu1p : u1.pos = u.pos + 4 := by rw [hu1]
  cases r1 with
  | error e =>
    have heq : Unpacker.unpack_string u = (Except.error e, u1) := by
      simp only [Unpacker.unpack_string, h1]
    rw [heq]
    refine ⟨hu1b, ?_, ?_⟩
    · show u1.pos ≤ u.buf.length + 8
      omega
    · intro hc
      exact Bool.noConfusion hc
  | ok n =>
    have hle1 : u.pos + 4 ≤ u.buf.length := unpack_uint_ok_le u (by rw [h1]; rfl)
    have hlen1 : u1.buf.length = u.buf.length := by rw [hu1b]
    have hI1 : u1.pos ≤ u1.buf.length := by omega
    have hf := unpack_fstring_facts n u1 hI1
    rw [hu1b] at hf
    obtain ⟨hfa, hfb⟩ := hf
    have heq : Unpacker.unpack_string u = Unpacker.unpack_fstring n u1 := by
      simp only [Unpacker.unpack_string, h1]
    rw [heq]
    exact ⟨hfa, by omega, fun _ => hfb⟩

theorem discardVal_snd {α : Type} (r : Except Err α × Unpacker) :
    (discardVal r).2 = r.2 := rfl

theorem discardVal_isOk {α : Type} (r : Except Err α × Unpacker) :
    (discardVal r).1.isOk = r.1.isOk := by
  rcases r with ⟨r1, u⟩
  cases r1 <;> rfl

theorem discard_facts {α : Type} (f : Unpacker → Except Err α × Unpacker) (u : Unpacker)
    (h1 : (f u).2.buf = u.buf) (h2 : (f u).2.pos ≤ u.buf.length + 8)
    (h3 : (f u).1.isOk = true → (f u).2.pos ≤ u.buf.length) :
    (discardVal (f u)).2.buf = u.buf ∧
    (discardVal (f u)).2.pos ≤ u.buf.length + 8 ∧
    ((discardVal (f u)).1.isOk = true → (discardVal (f u)).2.pos ≤ u.buf.length) :=
  ⟨h1, h2, fun h => h3 (by rw [← discardVal_isOk]; exact h)⟩

theorem runOp_facts (op : Op) (u : Unpacker) (hI : u.pos ≤ u.buf.length) :
    (runOp op u).2.buf = u.buf ∧
    (runOp op u).2.pos ≤ u.buf.length + 8 ∧
    ((runOp op u).1.isOk = true → (runOp op u).2.pos ≤ u.buf.length) := by
  cases op with
  | uint =>
    refine discard_facts Unpacker.unpack_uint u ?_ ?_ ?_
    · rw [unpack_uint_snd]
    · rw [unpack_uint_snd]
      show u.pos + 4 ≤ u.buf.length + 8
      omega
    · intro h
      rw [unpack_uint_snd]
      show u.pos + 4 ≤ u.buf.length
      exact unpack_uint_ok_le u h
  | int =>
    refine discard_facts Unpacker.unpack_int u ?_ ?_ ?_
    · rw [unpack_int_snd]
    · rw [unpack_int_snd]
      show u.pos + 4 ≤ u.buf.length + 8
      omega
    · intro h
      rw [unpack_int_snd]
      show u.pos + 4 ≤ u.buf.length
      exact unpack_int_ok_le u h
  | enum =>
    refine discard_facts Unpacker.unpack_enum u ?_ ?_ ?_
    · show (Unpacker.unpack_int u).2.buf = u.buf
      rw [unpack_int_snd]
    · show (Unpacker.unpack_int u).2.pos ≤ u.buf.length + 8
      rw [unpack_int_snd]
      show u.pos + 4 ≤ u.buf.length + 8
      omega
    · intro h
      show (Unpacker.unpack_int u).2.pos ≤ u.buf.length
      rw [unpack_int_snd]
      show u.pos + 4 ≤ u.buf.length
      exact unpack_int_ok_le u h
  | bool =>
    have hb := unpack_bool_facts u
    refine discard_facts Unpacker.unpack_bool u ?_ ?_ ?_
    · rw [hb.1, unpack_int_snd]
    · rw [hb.1, unpack_int_snd]
      show u.pos + 4 ≤ u.buf.length + 8
      omega
    · intro h
      rw [hb.1, unpack_int_snd]
      show u.pos + 4 ≤ u.buf.length
      refine unpack_int_ok_le u ?_
      rw [← hb.2]
      exact h
  | uhyper =>
    have hf := unpack_uhyper_facts u hI
    exact discard_facts Unpacker.unpack_uhyper u hf.1 hf.2.1 hf.2.2
  | hyper =>
    have he := unpack_hyper_eq u
    have hf := unpack_uhyper_facts u hI
    refine discard_facts Unpacker.unpack_hyper u ?_ ?_ ?_
    · rw [he.1]
      exact hf.1
    · rw [he.1]
      exact hf.2.1
    · intro h
      rw [he.1]
      refine hf.2.2 ?_
      rw [← he.2]
      exact h
  | float =>
    refine discard_facts Unpacker.unpack_float u ?_ ?_ ?_
    · rw [unpack_float_snd]
    · rw [unpack_float_snd]
      show u.pos + 4 ≤ u.buf.length + 8
      omega
    · intro h
      rw [unpack_float_snd]
      show u.pos + 4 ≤ u.buf.length
      exact unpack_float_ok_le u h
  | double =>
    refine discard_facts Unpacker.unpack_double u ?_ ?_ ?_
    · rw [unpack_double_snd]
    · rw [unpack_double_snd]
      show u.pos + 8 ≤ u.buf.length + 8
      omega
    · intro h
      rw [unpack_double_snd]
      show u.pos + 8 ≤ u.buf.length
      exact unpack_double_ok_le u h
  | fstring n =>
    have hf := unpack_fstring_facts n u hI
    exact discard_facts (Unpacker.unpack_fstring n) u hf.1 (by omega) (fun _ => hf.2)
  | string =>
    have hf := unpack_string_facts u hI
    exact discard_facts Unpacker.unpack_string u hf.1 hf.2.1 hf.2.2
  | done =>
    refine ⟨rfl, ?_, fun _ => hI⟩
    show u.pos ≤ u.buf.length + 8
    omega

theorem runOps_facts (ops : List Op) (u : Unpacker) (hI : u.pos ≤ u.buf.length) :
    (runOps ops u).buf = u.buf ∧
    (runOps ops u).pos ≤ u.buf.length + 8 ∧
    (runOpsOk ops u = true → (runOps ops u).pos ≤ u.buf.length) := by
  induction ops generalizing u with
  | nil =>
    refine ⟨rfl, ?_, fun _ => hI⟩
    show u.pos ≤ u.buf.length + 8
    omega
  | cons op ops ih =>
    rcases h : runOp op u with ⟨r, u'⟩
    have hf := runOp_facts op u hI
    rw [h] at hf
    obtain ⟨hb, hp8, hok⟩ := hf
    cases r with
    | error e =>
      have he1 : runOps (op :: ops) u = u' := by
        simp only [runOps, h]
      have he2 : runOpsOk (op :: ops) u = false := by
        simp only [runOpsOk, h]
      rw [he1, he2]
      exact ⟨hb, hp8, fun hc => Bool.noConfusion hc⟩
    | ok a =>
      have hIl : u'.pos ≤ u'.buf.length := by
        rw [hb]
        exact hok rfl
      have hrec := ih u' hIl
      rw [hb] at hrec
      have he1 : runOps (op :: ops) u = runOps ops u' := by
        simp only [runOps, h]
      have he2 : runOpsOk (op :: ops) u = runOpsOk ops u' := by
        simp only [runOpsOk, h]
      rw [he1, he2]
      exact hrec

theorem unpack_fstring_err_snd (n : Int) (u : Unpacker)
    (h : (Unpacker.unpack_fstring n u).1.isOk = false) :
    (Unpacker.unpack_fstring n u).2 = u := by
  by_cases hn : n < 0
  · rw [Unpacker.unpack_fstring, if_pos hn]
  · by_cases hj : u.buf.length < u.pos + (n.toNat + 3) / 4 * 4
    · rw [Unpacker.unpack_fstring, if_neg hn]
      dsimp only
      rw [if_pos hj]
    · exfalso
      rw [Unpacker.unpack_fstring, if_neg hn] at h
      dsimp only at h
      rw [if_neg hj] at h
      exact Bool.noConfusion h

/-- C2 counterexample: the claim says a failing end-of-data `unpack_*`
call leaves the cursor equal to its value before the call; but
`unpack_uint` on an empty buffer raises `EOFError` with the cursor
already advanced from 0 to 4. -/
theorem C2_counterexample :
    (Unpacker.unpack_uint ⟨[], 0⟩).1 = Except.error Err.eofError ∧
    (Unpacker.unpack_uint ⟨[], 0⟩).2.pos = 4 :=
  ⟨rfl, rfl⟩

/-- C2 (amended): only `unpack_fstring` (and operations delegating to it)
raises before any cursor mutation, leaving the state unchanged on
failure; the fixed-size reads `unpack_uint` / `unpack_int` /
`unpack_float` / `unpack_double` commit the cursor advance (by the
attempted read size, 4 or 8) before the end-of-data check, so a failing
call leaves the cursor advanced. -/
theorem C2_amended (u : Unpacker) (n : Int)
    (h : (Unpacker.unpack_fstring n u).1.isOk = false) :
    (Unpacker.unpack_fstring n u).2 = u ∧
    (Unpacker.unpack_uint u).2 = ⟨u.buf, u.pos + 4⟩ ∧
    (Unpacker.unpack_int u).2 = ⟨u.buf, u.pos + 4⟩ ∧
    (Unpacker.unpack_float u).2 = ⟨u.buf, u.pos + 4⟩ ∧
    (Unpacker.unpack_double u).2 = ⟨u.buf, u.pos + 8⟩ :=
  ⟨unpack_fstring_err_snd n u h, unpack_uint_snd u, unpack_int_snd u,
    unpack_float_snd u, unpack_double_snd u⟩

theorem C2_amended_witness :
    (Unpacker.unpack_fstring 1 ⟨[], 0⟩).1.isOk = false ∧
    ((Unpacker.unpack_fstring 1 ⟨[], 0⟩).2 = ⟨[], 0⟩ ∧
      (Unpacker.unpack_uint ⟨[], 0⟩).2 = ⟨[], 0 + 4⟩ ∧
      (Unpacker.unpack_int ⟨[], 0⟩).2 = ⟨[], 0 + 4⟩ ∧
      (Unpacker.unpack_float ⟨[], 0⟩).2 = ⟨[], 0 + 4⟩ ∧
      (Unpacker.unpack_double ⟨[], 0⟩).2 = ⟨[], 0 + 8⟩) :=
  ⟨rfl, C2_amended ⟨[], 0⟩ 1 rfl⟩

/-- C3 counterexample: the claim says the cursor never exceeds the buffer
length after any operation; but the single-operation sequence
`[unpack_uint]` on a fresh `Unpacker` over the empty buffer leaves the
cursor at 4 > 0. -/
theorem C3_counterexample :
    runOps [Op.uint] (Unpacker.reset []) = ⟨[], 4⟩ ∧
    ¬ (runOps [Op.uint] (Unpacker.reset [])).pos ≤ (Unpacker.reset ([] : List Nat)).buf.length :=
  ⟨rfl, by decide⟩

/-- C3 (amended): over any sequence of `unpack_*` operations (without
`set_position`) from a fresh or reset `Unpacker`, the buffer is
unchanged, the cursor stays at most 8 bytes past the buffer length
(8 = the largest committed-before-check read), and if every operation
succeeded the cursor is within the buffer length. -/
theorem C3_amended (ops : List Op) (data : List Nat) :
    (runOps ops (Unpacker.reset data)).buf = data ∧
    (runOps ops (Unpacker.reset data)).pos ≤ data.length + 8 ∧
    (runOpsOk ops (Unpacker.reset data) = true →
      (runOps ops (Unpacker.reset data)).pos ≤ data.length) :=
  runOps_facts ops (Unpacker.reset data) (Nat.zero_le _)

theorem C3_amended_witness :
    runOpsOk [Op.uint] (Unpacker.reset [0, 0, 0, 0]) = true ∧
    (runOps [Op.uint] (Unpacker.reset [0, 0, 0, 0])).pos ≤ ([0, 0, 0, 0] : List Nat).length :=
  ⟨rfl, (C3_amended [Op.uint] [0, 0, 0, 0]).2.2 rfl⟩

/-- C4 counterexample: the claim says `pack_uhyper x` fails with
`ConversionError` whenever `x >> 32` is outside `[0, 2^32)`, e.g. for
`x = 2^64`; but the source masks the high half (`x >> 32 & 0xFFFFFFFF`),
so `pack_uhyper (2^64)` succeeds, writing eight zero bytes. -/
theorem C4_counterexample :
    (Packer.pack_uhyper 18446744073709551616 Packer.reset).1 = Except.ok () ∧
    (Packer.pack_uhyper 18446744073709551616 Packer.reset).2 = [0, 0, 0, 0, 0, 0, 0, 0] :=
  ⟨rfl, rfl⟩

/-- C4 (amended): `pack_uhyper x` (= `pack_hyper`) writes 8 bytes by
delegating `pack_uint` on `(x >> 32) & 0xFFFFFFFF` and then on
`x & 0xFFFFFFFF`; because both halves are masked into `[0, 2^32)`
before delegation, the 32-bit range check never fires and the call
succeeds for every integer `x` (for `x ≥ 2^64` the value is thereby
reduced mod `2^64` instead of failing). -/
theorem C4_amended (x : Int) (buf : List Nat) :
    Packer.pack_uhyper x buf =
      (Except.ok (), buf ++
        (beBytes 4 ((x / 4294967296 % 4294967296).toNat) ++
          beBytes 4 ((x % 4294967296).toNat))) :=
  pack_uhyper_eq x buf

/-- C10: for every integer `x` of any sign or magnitude, `pack_uhyper x`
and its alias `pack_hyper x` succeed without raising and append exactly
the 8-byte big-endian encoding of `x mod 2^64`, thanks to the
`& 0xFFFFFFFF` masks on both delegated words. -/
theorem C10_uhyper_masking (x : Int) (buf : List Nat) :
    Packer.pack_uhyper x buf =
      (Except.ok (), buf ++ beBytes 8 ((x % 18446744073709551616).toNat)) ∧
    Packer.pack_hyper x buf = Packer.pack_uhyper x buf :=
  ⟨pack_uhyper_bytes x buf, rfl⟩

/-- C6: for `n ≥ 0`, `pack_fstring n s` appends exactly
`((n + 3) // 4) * 4` bytes — the first `n` bytes of `s` (zero-padded to
length `n` when `s` is shorter) followed by zero bytes up to the next
multiple of 4 — and for `n < 0` it fails with `ValueError`, appending
nothing. -/
theorem C6_pack_fstring (n : Int) (s buf : List Nat) :
    (0 ≤ n →
      Packer.pack_fstring n s buf =
        (Except.ok (), buf ++
          ((s.take n.toNat ++ List.replicate (n.toNat - (s.take n.toNat).length) 0) ++
            List.replicate ((n.toNat + 3) / 4 * 4 - n.toNat) 0)) ∧
      (Packer.pack_fstring n s buf).2.length = buf.length + (n.toNat + 3) / 4 * 4) ∧
    (n < 0 →
      Packer.pack_fstring n s buf =
        (Except.error (Err.valueError "fstring size must be nonnegative"), buf)) := by
  constructor
  · intro hn
    have hnn : ¬ n < 0 := by omega
    have hlen : (s.take n.toNat).length = min n.toNat s.length := by
      simp [List.length_take]
    have hle : (s.take n.toNat).length ≤ n.toNat := by omega
    have halign : n.toNat ≤ (n.toNat + 3) / 4 * 4 := by omega
    have heq : Packer.pack_fstring n s buf =
        (Except.ok (), buf ++ (s.take n.toNat ++
          List.replicate ((n.toNat + 3) / 4 * 4 - (s.take n.toNat).length) 0)) := by
      rw [Packer.pack_fstring, if_neg hnn]
    constructor
    · rw [heq]
      refine congrArg _ (congrArg _ ?_)
      rw [List.append_assoc, ← List.replicate_add]
      refine congrArg (fun z => s.take n.toNat ++ z) ?_
      refine congrArg (fun k => List.replicate k (0 : Nat)) ?_
      omega
    · rw [heq]
      show (buf ++ (s.take n.toNat ++
        List.replicate ((n.toNat + 3) / 4 * 4 - (s.take n.toNat).length) 0)).length = _
      rw [List.length_append, List.length_append, List.length_replicate]
      omega
  · intro hn
    rw [Packer.pack_fstring, if_pos hn]

theorem C6_pack_fstring_witness :
    Packer.pack_fstring 3 [97, 98] [] = (Except.ok (), [97, 98, 0, 0]) ∧
    Packer.pack_fstring (-1) [97] [] =
      (Except.error (Err.valueError "fstring size must be nonnegative"), []) := by
  constructor
  · have h := (C6_pack_fstring 3 [97, 98] []).1 (by decide)
    rw [h.1]
    rfl
  · exact (C6_pack_fstring (-1) [97] []).2 (by decide)

/-- C7: for `n ≥ 0`, `unpack_fstring n` fails with `EOFError` — leaving
the cursor unchanged — when fewer than `((n + 3) // 4) * 4` bytes remain
past the cursor; otherwise it advances the cursor by exactly that
aligned length and returns only the first `n` bytes at the prior cursor
position (padding consumed but not validated); for `n < 0` it fails
with `ValueError`. -/
theorem C7_unpack_fstring (n : Int) (u : Unpacker) :
    (n < 0 →
      Unpacker.unpack_fstring n u =
        (Except.error (Err.valueError "fstring size must be nonnegative"), u)) ∧
    (0 ≤ n →
      (u.buf.length < u.pos + (n.toNat + 3) / 4 * 4 →
        Unpacker.unpack_fstring n u = (Except.error Err.eofError, u)) ∧
      (u.pos + (n.toNat + 3) / 4 * 4 ≤ u.buf.length →
        Unpacker.unpack_fstring n u =
          (Except.ok (pySlice u.buf u.pos (u.pos + n.toNat)),
            ⟨u.buf, u.pos + (n.toNat + 3) / 4 * 4⟩))) := by
  refine ⟨fun hn => ?_, fun hn => ⟨fun hj => ?_, fun hj => ?_⟩⟩
  · rw [Unpacker.unpack_fstring, if_pos hn]
  · rw [Unpacker.unpack_fstring, if_neg (by omega)]
    dsimp only
    rw [if_pos hj]
  · rw [Unpacker.unpack_fstring, if_neg (by omega)]
    dsimp only
    rw [if_neg (by omega)]

theorem C7_unpack_fstring_witness :
    Unpacker.unpack_fstring 1 ⟨[7, 8, 9, 10], 0⟩ = (Except.ok [7], ⟨[7, 8, 9, 10], 4⟩) ∧
    Unpacker.unpack_fstring 1 ⟨[7], 0⟩ = (Except.error Err.eofError, ⟨[7], 0⟩) ∧
    Unpacker.unpack_fstring (-1) ⟨[7], 0⟩ =
      (Except.error (Err.valueError "fstring size must be nonnegative"), ⟨[7], 0⟩) := by
  refine ⟨?_, ?_, ?_⟩
  · have h := ((C7_unpack_fstring 1 ⟨[7, 8, 9, 10], 0⟩).2 (by decide)).2 (by decide)
    rw [h]
    rfl
  · exact ((C7_unpack_fstring 1 ⟨[7], 0⟩).2 (by decide)).1 (by decide)
  · exact (C7_unpack_fstring (-1) ⟨[7], 0⟩).1 (by decide)

/-- C9: `pack_farray n items pack_item` fails with `ValueError`, leaving
the buffer untouched, whenever `items.length ≠ n`; when the lengths
match it packs each item in sequence order (no length prefix), i.e. it
is the plain sequential loop `packItems`. -/
theorem C9_pack_farray {α : Type} (n : Int) (items : List α)
    (pack_item : α → List Nat → Except Err Unit × List Nat) (buf : List Nat) :
    ((items.length : Int) ≠ n →
      Packer.pack_farray n items pack_item buf =
        (Except.error (Err.valueError "wrong array size"), buf)) ∧
    ((items.length : Int) = n →
      Packer.pack_farray n items pack_item buf = Packer.packItems items pack_item buf) := by
  refine ⟨fun h => ?_, fun h => ?_⟩
  · rw [Packer.pack_farray, if_pos h]
  · rw [Packer.pack_farray, if_neg (fun hc => hc h)]

theorem C9_pack_farray_witness :
    Packer.pack_farray 3 [(1 : Int), 2] Packer.pack_int [] =
      (Except.error (Err.valueError "wrong array size"), []) ∧
    Packer.pack_farray 2 [(1 : Int), 2] Packer.pack_int [] =
      Packer.packItems [(1 : Int), 2] Packer.pack_int [] :=
  ⟨(C9_pack_farray 3 [(1 : Int), 2] Packer.pack_int []).1 (by decide),
    (C9_pack_farray 2 [(1 : Int), 2] Packer.pack_int []).2 (by decide)⟩

theorem roundtrip_uint (v : Int) (h0 : 0 ≤ v) (h1 : v < 4294967296) :
    (Packer.pack_uint v Packer.reset).1 = Except.ok () ∧
    (Unpacker.unpack_uint
      (Unpacker.reset (Packer.get_buffer (Packer.pack_uint v Packer.reset).2))).1 =
      Except.ok v := by
  have hp := pack_uint_ok v Packer.reset h0 h1
  have hbytes : Packer.get_buffer (Packer.pack_uint v Packer.reset).2 = beBytes 4 v.toNat := by
    rw [hp]
    exact List.nil_append _
  constructor
  · rw [hp]
  · rw [hbytes]
    have h := unpack_uint_at (Unpacker.reset (beBytes 4 v.toNat)) [] [] v.toNat
      (by simp [Unpacker.reset]) rfl (by omega)
    rw [h]
    show Except.ok ((v.toNat : Nat) : Int) = Except.ok v
    exact congrArg _ (by omega)

theorem roundtrip_int (v : Int) (h0 : -2147483648 ≤ v) (h1 : v < 2147483648) :
    (Packer.pack_int v Packer.reset).1 = Except.ok () ∧
    (Unpacker.unpack_int
      (Unpacker.reset (Packer.get_buffer (Packer.pack_int v Packer.reset).2))).1 =
      Except.ok v := by
  have hp := pack_int_ok v Packer.reset h0 h1
  have hbytes : Packer.get_buffer (Packer.pack_int v Packer.reset).2 =
      beBytes 4 ((v % 4294967296).toNat) := by
    rw [hp]
    exact List.nil_append _
  constructor
  · rw [hp]
  · rw [hbytes]
    have h := unpack_int_at (Unpacker.reset (beBytes 4 ((v % 4294967296).toNat))) [] [] v
      (by simp [Unpacker.reset]) rfl h0 h1
    rw [h]

theorem roundtrip_bool (b : Bool) :
    (Packer.pack_bool b Packer.reset).1 = Except.ok () ∧
    (Unpacker.unpack_bool
      (Unpacker.reset (Packer.get_buffer (Packer.pack_bool b Packer.reset).2))).1 =
      Except.ok b := by
  cases b <;> exact ⟨rfl, rfl⟩

theorem roundtrip_uhyper (v : Int) (h0 : 0 ≤ v) (h1 : v < 18446744073709551616) :
    (Packer.pack_uhyper v Packer.reset).1 = Except.ok () ∧
    (Unpacker.unpack_uhyper
      (Unpacker.reset (Packer.get_buffer (Packer.pack_uhyper v Packer.reset).2))).1 =
      Except.ok v := by
  have hp := pack_uhyper_bytes v Packer.reset
  have hbytes : Packer.get_buffer (Packer.pack_uhyper v Packer.reset).2 =
      beBytes 8 ((v % 18446744073709551616).toNat) := by
    rw [hp]
    exact List.nil_append _
  constructor
  · rw [hp]
  · rw [hbytes]
    have h := unpack_uhyper_at
      (Unpacker.reset (beBytes 8 ((v % 18446744073709551616).toNat))) [] []
      ((v % 18446744073709551616).toNat) (by simp [Unpacker.reset]) rfl (by omega)
    rw [h]
    show Except.ok (((v % 18446744073709551616).toNat : Nat) : Int) = Except.ok v
    exact congrArg _ (by omega)

theorem roundtrip_hyper (v : Int)
    (h0 : -9223372036854775808 ≤ v) (h1 : v < 9223372036854775808) :
    (Packer.pack_hyper v Packer.reset).1 = Except.ok () ∧
    (Unpacker.unpack_hyper
      (Unpacker.reset (Packer.get_buffer (Packer.pack_hyper v Packer.reset).2))).1 =
      Except.ok v := by
  show (Packer.pack_uhyper v Packer.reset).1 = Except.ok () ∧
    (Unpacker.unpack_hyper
      (Unpacker.reset (Packer.get_buffer (Packer.pack_uhyper v Packer.reset).2))).1 =
      Except.ok v
  have hp := pack_uhyper_bytes v Packer.reset
  have hbytes : Packer.get_buffer (Packer.pack_uhyper v Packer.reset).2 =
      beBytes 8 ((v % 18446744073709551616).toNat) := by
    rw [hp]
    exact List.nil_append _
  constructor
  · rw [hp]
  · rw [hbytes]
    have h := unpack_hyper_at
      (Unpacker.reset (beBytes 8 ((v % 18446744073709551616).toNat))) [] [] v
      (by simp [Unpacker.reset]) rfl h0 h1
    rw [h]

theorem roundtrip_float (p : Nat) (hp : p < 4294967296) :
    (Packer.pack_float p Packer.reset).1 = Except.ok () ∧
    (Unpacker.unpack_float
      (Unpacker.reset (Packer.get_buffer (Packer.pack_float p Packer.reset).2))).1 =
      Except.ok p := by
  have hbytes : Packer.get_buffer (Packer.pack_float p Packer.reset).2 = beBytes 4 p :=
    List.nil_append _
  refine ⟨rfl, ?_⟩
  rw [hbytes]
  have h := unpack_float_at (Unpacker.reset (beBytes 4 p)) [] [] p
    (by simp [Unpacker.reset]) rfl hp
  rw [h]

theorem roundtrip_double (p : Nat) (hp : p < 18446744073709551616) :
    (Packer.pack_double p Packer.reset).1 = Except.ok () ∧
    (Unpacker.unpack_double
      (Unpacker.reset (Packer.get_buffer (Packer.pack_double p Packer.reset).2))).1 =
      Except.ok p := by
  have hbytes : Packer.get_buffer (Packer.pack_double p Packer.reset).2 = beBytes 8 p :=
    List.nil_append _
  refine ⟨rfl, ?_⟩
  rw [hbytes]
  have h := unpack_double_at (Unpacker.reset (beBytes 8 p)) [] [] p
    (by simp [Unpacker.reset]) rfl hp
  rw [h]

/-- C1: for every scalar type in {uint, int, enum, bool, uhyper, hyper,
float, double} and every in-range value, packing into a fresh `Packer`
and decoding the resulting `get_buffer()` output with a fresh `Unpacker`
returns the original value (floats/doubles represented by their IEEE-754
bit patterns). -/
theorem C1_scalar_roundtrip
    (xu xi xe : Int) (b : Bool) (xuh xh : Int) (pf pd : Nat)
    (hu0 : 0 ≤ xu) (hu1 : xu < 4294967296)
    (hi0 : -2147483648 ≤ xi) (hi1 : xi < 2147483648)
    (he0 : -2147483648 ≤ xe) (he1 : xe < 2147483648)
    (huh0 : 0 ≤ xuh) (huh1 : xuh < 18446744073709551616)
    (hh0 : -9223372036854775808 ≤ xh) (hh1 : xh < 9223372036854775808)
    (hf : pf < 4294967296) (hd : pd < 18446744073709551616) :
    ((Packer.pack_uint xu Packer.reset).1 = Except.ok () ∧
      (Unpacker.unpack_uint
        (Unpacker.reset (Packer.get_buffer (Packer.pack_uint xu Packer.reset).2))).1 =
        Except.ok xu) ∧
    ((Packer.pack_int xi Packer.reset).1 = Except.ok () ∧
      (Unpacker.unpack_int
        (Unpacker.reset (Packer.get_buffer (Packer.pack_int xi Packer.reset).2))).1 =
        Except.ok xi) ∧
    ((Packer.pack_enum xe Packer.reset).1 = Except.ok () ∧
      (Unpacker.unpack_enum
        (Unpacker.reset (Packer.get_buffer (Packer.pack_enum xe Packer.reset).2))).1 =
        Except.ok xe) ∧
    ((Packer.pack_bool b Packer.reset).1 = Except.ok () ∧
      (Unpacker.unpack_bool
        (Unpacker.reset (Packer.get_buffer (Packer.pack_bool b Packer.reset).2))).1 =
        Except.ok b) ∧
    ((Packer.pack_uhyper xuh Packer.reset).1 = Except.ok () ∧
      (Unpacker.unpack_uhyper
        (Unpacker.reset (Packer.get_buffer (Packer.pack_uhyper xuh Packer.reset).2))).1 =
        Except.ok xuh) ∧
    ((Packer.pack_hyper xh Packer.reset).1 = Except.ok () ∧
      (Unpacker.unpack_hyper
        (Unpacker.reset (Packer.get_buffer (Packer.pack_hyper xh Packer.reset).2))).1 =
        Except.ok xh) ∧
    ((Packer.pack_float pf Packer.reset).1 = Except.ok () ∧
      (Unpacker.unpack_float
        (Unpacker.reset (Packer.get_buffer (Packer.pack_float pf Packer.reset).2))).1 =
        Except.ok pf) ∧
    ((Packer.pack_double pd Packer.reset).1 = Except.ok () ∧
      (Unpacker.unpack_double
        (Unpacker.reset (Packer.get_buffer (Packer.pack_double pd Packer.reset).2))).1 =
        Except.ok pd) :=
  ⟨roundtrip_uint xu hu0 hu1, roundtrip_int xi hi0 hi1, roundtrip_int xe he0 he1,
    roundtrip_bool b, roundtrip_uhyper xuh huh0 huh1, roundtrip_hyper xh hh0 hh1,
    roundtrip_float pf hf, roundtrip_double pd hd⟩

theorem C1_scalar_roundtrip_witness :
    (Unpacker.unpack_uint
      (Unpacker.reset (Packer.get_buffer (Packer.pack_uint 7 Packer.reset).2))).1 =
      Except.ok 7 ∧
    (Unpacker.unpack_int
      (Unpacker.reset (Packer.get_buffer (Packer.pack_int (-2) Packer.reset).2))).1 =
      Except.ok (-2) ∧
    (Unpacker.unpack_enum
      (Unpacker.reset (Packer.get_buffer (Packer.pack_enum 3 Packer.reset).2))).1 =
      Except.ok 3 ∧
    (Unpacker.unpack_bool
      (Unpacker.reset (Packer.get_buffer (Packer.pack_bool true Packer.reset).2))).1 =
      Except.ok true ∧
    (Unpacker.unpack_uhyper
      (Unpacker.reset
        (Packer.get_buffer (Packer.pack_uhyper 72623859790382856 Packer.reset).2))).1 =
      Except.ok 72623859790382856 ∧
    (Unpacker.unpack_hyper
      (Unpacker.reset (Packer.get_buffer (Packer.pack_hyper (-1) Packer.reset).2))).1 =
      Except.ok (-1) ∧
    (Unpacker.unpack_float
      (Unpacker.reset (Packer.get_buffer (Packer.pack_float 3212836864 Packer.reset).2))).1 =
      Except.ok 3212836864 ∧
    (Unpacker.unpack_double
      (Unpacker.reset (Packer.get_buffer (Packer.pack_double 123 Packer.reset).2))).1 =
      Except.ok 123 := by
  have h := C1_scalar_roundtrip 7 (-2) 3 true 72623859790382856 (-1) 3212836864 123
    (by decide) (by decide) (by decide) (by decide) (by decide) (by decide)
    (by decide) (by decide) (by decide) (by decide) (by decide) (by decide)
  exact ⟨h.1.2, h.2.1.2, h.2.2.1.2, h.2.2.2.1.2, h.2.2.2.2.1.2, h.2.2.2.2.2.1.2,
    h.2.2.2.2.2.2.1.2, h.2.2.2.2.2.2.2.2⟩

theorem listWire_nil : listWire [] = beBytes 4 0 := by
  simp [listWire]

theorem listWire_cons (v : Int) (vs : List Int) :
    listWire (v :: vs) =
      beBytes 4 1 ++ (beBytes 4 ((v % 4294967296).toNat) ++ listWire vs) := by
  simp [listWire, List.append_assoc]

theorem listWire_length (vs : List Int) : (listWire vs).length = 8 * vs.length + 4 := by
  induction vs with
  | nil =>
    simp [listWire_nil, beBytes_length]
  | cons v vs ih =>
    rw [listWire_cons, List.length_append, List.length_append, beBytes_length,
      beBytes_length, ih, List.length_cons]
    omega

theorem pack_list_int : ∀ (vs : List Int) (buf : List Nat),
    (∀ v ∈ vs, -2147483648 ≤ v ∧ v < 2147483648) →
    Packer.pack_list vs Packer.pack_int buf = (Except.ok (), buf ++ listWire vs) := by
  intro vs
  induction vs with
  | nil =>
    intro buf h
    have h0 := pack_uint_ok 0 buf (by omega) (by omega)
    simp only [Packer.pack_list, h0, listWire_nil, Int.toNat_zero]
  | cons v vs ih =>
    intro buf h
    have hv := h v (List.mem_cons_self v vs)
    have hrest : ∀ w ∈ vs, -2147483648 ≤ w ∧ w < 2147483648 :=
      fun w hw => h w (List.mem_cons_of_mem v hw)
    have h1 := pack_uint_ok 1 buf (by omega) (by omega)
    have h2 := pack_int_ok v (buf ++ beBytes 4 1) hv.1 hv.2
    have h3 := ih (buf ++ beBytes 4 1 ++ beBytes 4 ((v % 4294967296).toNat)) hrest
    simp only [List.append_assoc] at h3
    simp only [Packer.pack_list, h1, Int.toNat_one, h2, h3, listWire_cons,
      List.append_assoc]

theorem unpack_list_fuel_int : ∀ (vs : List Int) (fuel : Nat), vs.length < fuel →
    (∀ v ∈ vs, -2147483648 ≤ v ∧ v < 2147483648) →
    ∀ (pre rest : List Nat),
    Unpacker.unpack_list_fuel Unpacker.unpack_int fuel
        ⟨pre ++ (listWire vs ++ rest), pre.length⟩ =
      (some (Except.ok vs),
        ⟨pre ++ (listWire vs ++ rest), pre.length + (listWire vs).length⟩) := by
  intro vs
  induction vs with
  | nil =>
    intro fuel hfuel h pre rest
    obtain ⟨f, rfl⟩ : ∃ f, fuel = f + 1 := ⟨fuel - 1, by omega⟩
    have hu : Unpacker.unpack_uint ⟨pre ++ (listWire [] ++ rest), pre.length⟩ =
        (Except.ok (0 : Int), ⟨pre ++ (listWire [] ++ rest), pre.length + 4⟩) := by
      have h' := unpack_uint_at ⟨pre ++ (listWire [] ++ rest), pre.length⟩ pre rest 0
        (by show pre ++ (listWire [] ++ rest) = pre ++ (beBytes 4 0 ++ rest)
            rw [listWire_nil]) rfl (by omega)
      exact h'
    have hlen : (listWire ([] : List Int)).length = 4 := by
      rw [listWire_nil, beBytes_length]
    simp only [Unpacker.unpack_list_fuel, hu]
    rw [if_pos trivial, hlen]
  | cons v vs ih =>
    intro fuel hfuel h pre rest
    obtain ⟨f, rfl⟩ : ∃ f, fuel = f + 1 := ⟨fuel - 1, by omega⟩
    have hv := h v (List.mem_cons_self v vs)
    have hrest : ∀ w ∈ vs, -2147483648 ≤ w ∧ w < 2147483648 :=
      fun w hw => h w (List.mem_cons_of_mem v hw)
    have hflen : vs.length < f := by
      rw [List.length_cons] at hfuel
      omega
    have hbuf1 : pre ++ (listWire (v :: vs) ++ rest) =
        pre ++ (beBytes 4 1 ++
          (beBytes 4 ((v % 4294967296).toNat) ++ (listWire vs ++ rest))) := by
      rw [listWire_cons]
      simp [List.append_assoc]
    have hu1 : Unpacker.unpack_uint ⟨pre ++ (listWire (v :: vs) ++ rest), pre.length⟩ =
        (Except.ok (1 : Int),
          ⟨pre ++ (listWire (v :: vs) ++ rest), pre.length + 4⟩) := by
      have h' := unpack_uint_at ⟨pre ++ (listWire (v :: vs) ++ rest), pre.length⟩ pre
        (beBytes 4 ((v % 4294967296).toNat) ++ (listWire vs ++ rest)) 1 hbuf1 rfl (by omega)
      exact h'
    have hbuf2 : pre ++ (listWire (v :: vs) ++ rest) =
        (pre ++ beBytes 4 1) ++
          (beBytes 4 ((v % 4294967296).toNat) ++ (listWire vs ++ rest)) := by
      rw [hbuf1]
      simp [List.append_assoc]
    have hp2 : pre.length + 4 = (pre ++ beBytes 4 1).length := by
      rw [List.length_append, beBytes_length]
    have hi2 : Unpacker.unpack_int ⟨pre ++ (listWire (v :: vs) ++ rest), pre.length + 4⟩ =
        (Except.ok v, ⟨pre ++ (listWire (v :: vs) ++ rest), pre.length + 4 + 4⟩) := by
      have h' := unpack_int_at ⟨pre ++ (listWire (v :: vs) ++ rest), pre.length + 4⟩
        (pre ++ beBytes 4 1) (listWire vs ++ rest) v hbuf2 hp2 hv.1 hv.2
      exact h'
    have hbuf3 : (pre ++ beBytes 4 1 ++ beBytes 4 ((v % 4294967296).toNat)) ++
        (listWire vs ++ rest) = pre ++ (listWire (v :: vs) ++ rest) := by
      rw [hbuf1]
      simp [List.append_assoc]
    have hp3 : (pre ++ beBytes 4 1 ++ beBytes 4 ((v % 4294967296).toNat)).length =
        pre.length + 4 + 4 := by
      rw [List.length_append, List.length_append, beBytes_length, beBytes_length]
    have hrec := ih f hflen hrest (pre ++ beBytes 4 1 ++ beBytes 4 ((v % 4294967296).toNat))
      rest
    rw [hbuf3, hp3] at hrec
    have hlen : (listWire (v :: vs)).length = 4 + (4 + (listWire vs).length) := by
      rw [listWire_cons, List.length_append, List.length_append, beBytes_length,
        beBytes_length]
    simp only [Unpacker.unpack_list_fuel, hu1]
    rw [if_neg (by norm_num), if_neg (by simp)]
    simp only [hi2, hrec]
    refine congrArg₂ Prod.mk rfl ?_
    refine congrArg (Unpacker.mk _) ?_
    rw [hlen]
    omega

theorem unpack_list_int (vs : List Int)
    (h : ∀ v ∈ vs, -2147483648 ≤ v ∧ v < 2147483648) :
    Unpacker.unpack_list Unpacker.unpack_int (Unpacker.reset (listWire vs)) =
      (some (Except.ok vs), ⟨listWire vs, (listWire vs).length⟩) := by
  have h' := unpack_list_fuel_int vs ((listWire vs).length + 1)
    (by rw [listWire_length]; omega) h [] []
  simp only [List.nil_append, List.append_nil, List.length_nil, Nat.zero_add] at h'
  exact h'

/-- C5 counterexample: the claim says a tag other than 0/1 in
`unpack_list` raises a `MalformedStreamError` kind *distinct from*
`ConversionError`, and that `done()` raises that same distinct kind; in
the source the bad-tag failure IS a `ConversionError` and `done()`
raises the plain base `Error` — no distinct kind exists. -/
theorem C5_counterexample :
    (Unpacker.unpack_list Unpacker.unpack_int (Unpacker.reset (beBytes 4 2))).1 =
      some (Except.error (Err.conversionError "0 or 1 expected, got 2")) ∧
    Unpacker.done ⟨[0], 0⟩ = Except.error (Err.error "unextracted data remains") :=
  ⟨rfl, rfl⟩

/-- C5 (amended): a structural decode violation is reported, but not via
a distinct error kind: `unpack_list` raises
`ConversionError("0 or 1 expected, got %r")` — the same kind used for
representation errors — on any tag other than 0 or 1, and `done()`
raises the module's base `Error("unextracted data remains")` when
unextracted data remains. -/
theorem C5_amended (x : Int) (rest : List Nat) (v : Unpacker)
    (hx0 : 0 ≤ x) (hx1 : x < 4294967296) (h0 : x ≠ 0) (h1 : x ≠ 1)
    (hv : v.pos < v.buf.length) :
    (Unpacker.unpack_list Unpacker.unpack_int
      (Unpacker.reset (beBytes 4 x.toNat ++ rest))).1 =
      some (Except.error (Err.conversionError ("0 or 1 expected, got " ++ toString x))) ∧
    Unpacker.done v = Except.error (Err.error "unextracted data remains") := by
  constructor
  · have hu : Unpacker.unpack_uint (Unpacker.reset (beBytes 4 x.toNat ++ rest)) =
        (Except.ok x, ⟨beBytes 4 x.toNat ++ rest, 0 + 4⟩) := by
      have h' := unpack_uint_at (Unpacker.reset (beBytes 4 x.toNat ++ rest)) [] rest
        x.toNat (by simp [Unpacker.reset]) rfl (by omega)
      rw [Int.toNat_of_nonneg hx0] at h'
      exact h'
    show (Unpacker.unpack_list_fuel Unpacker.unpack_int
      ((Unpacker.reset (beBytes 4 x.toNat ++ rest)).buf.length + 1)
      (Unpacker.reset (beBytes 4 x.toNat ++ rest))).1 = _
    simp only [Unpacker.unpack_list_fuel, hu]
    rw [if_neg h0, if_pos h1]
  · rw [Unpacker.done, if_pos hv]

theorem C5_amended_witness :
    (Unpacker.unpack_list Unpacker.unpack_int
      (Unpacker.reset (beBytes 4 (2 : Int).toNat ++ []))).1 =
      some (Except.error (Err.conversionError ("0 or 1 expected, got " ++ toString (2 : Int)))) ∧
    Unpacker.done ⟨[9], 0⟩ = Except.error (Err.error "unextracted data remains") :=
  C5_amended 2 [] ⟨[9], 0⟩ (by decide) (by decide) (by decide) (by decide) (by decide)

/-- C8: for every list of in-range 32-bit signed values,
`pack_list vs pack_int` on a fresh `Packer` writes, per element in
order, the tag-1 word followed by the element's 4-byte encoding, then a
final tag-0 word and no upfront count (the `listWire` layout), and
`unpack_list unpack_int` on a fresh `Unpacker` over that buffer returns
exactly `vs`. -/
theorem C8_list_roundtrip (vs : List Int)
    (h : ∀ v ∈ vs, -2147483648 ≤ v ∧ v < 2147483648) :
    Packer.pack_list vs Packer.pack_int Packer.reset = (Except.ok (), listWire vs) ∧
    (Unpacker.unpack_list Unpacker.unpack_int
      (Unpacker.reset
        (Packer.get_buffer (Packer.pack_list vs Packer.pack_int Packer.reset).2))).1 =
      some (Except.ok vs) := by
  have hp := pack_list_int vs Packer.reset h
  have hb : Packer.get_buffer (Packer.pack_list vs Packer.pack_int Packer.reset).2 =
      listWire vs := by
    rw [hp]
    exact List.nil_append _
  constructor
  · rw [hp]
    exact congrArg (Prod.mk (Except.ok ())) (List.nil_append _)
  · rw [hb, unpack_list_int vs h]

theorem C8_list_roundtrip_witness :
    Packer.pack_list [(1 : Int), 2] Packer.pack_int Packer.reset =
      (Except.ok (), listWire [(1 : Int), 2]) ∧
    (Unpacker.unpack_list Unpacker.unpack_int
      (Unpacker.reset (Packer.get_buffer
        (Packer.pack_list [(1 : Int), 2] Packer.pack_int Packer.reset).2))).1 =
      some (Except.ok [(1 : Int), 2]) :=
  C8_list_roundtrip [(1 : Int), 2] (by decide)

end Xdrlib
